import Mathlib

/-!
# go-sms-sender: the Azure Communication Services client (`azure.go`)

A shallow embedding of `GetACSClient` and `(*ACSClient).SendMessage`, and the
properties of the rendering, the payload, the request and the interpretation
of the response.

Conventions of the embedding.

* A Go `string` is a Lean `String`.  Strings are taken to be valid UTF-8, so
  that the byte-wise substring search of the Go library and a search over the
  list of code points find the same occurrences.
* A Go `error` result is an `Option String`: `none` is `nil`, `some m` is an
  error whose `Error()` text is `m`.
* `param map[string]string` is the list of its `(key, value)` entries in the
  order in which the `range` loop of the call visits them.  Go leaves that
  order unspecified, so every ordering of the entries is a possible run.
* The routines of the Go standard library that touch the outside world or
  whose code is not part of the package (`json.Marshal`, the URL check of
  `http.NewRequest`, `(*http.Client).Do`, `(*json.Decoder).Decode`) are the
  fields of `Lib`, and `SendMessage` records every call it makes to them.
-/

namespace GoSmsSender

/-! ## `strings.ReplaceAll` -/

/-- Left-to-right scan of `strings.ReplaceAll` for a non-empty `old`: the
first argument counts the characters of a matched occurrence that are still to
be skipped; at a position where `old` starts, `new` is emitted and the rest of
the occurrence is skipped, so that occurrences do not overlap. -/
def replaceFrom (old new : List Char) : Nat → List Char → List Char
  | _, [] => []
  | skip + 1, _ :: rest => replaceFrom old new skip rest
  | 0, c :: rest =>
    if old.isPrefixOf (c :: rest) then new ++ replaceFrom old new (old.length - 1) rest
    else c :: replaceFrom old new 0 rest

/-- Go `strings.ReplaceAll(s, old, new)`: a copy of `s` with all
non-overlapping instances of `old` replaced by `new`; an empty `old` matches at
the beginning of the string and after each code point. -/
def ReplaceAll (s old new : String) : String :=
  if old.data = [] then ⟨new.data ++ s.data.flatMap (fun c => c :: new.data)⟩
  else ⟨replaceFrom old.data new.data 0 s.data⟩

/-! ## Data model -/

/-- Go `type ACSClient struct`. -/
structure ACSClient where
  apiKey : String
  endpoint : String
  template : String
  deriving DecidableEq

/-- One element of `ACSResponse.Value`. -/
structure ACSResponseValue where
  To : String
  MessageID : String
  HTTPStatus : Int
  ErrorMessage : String
  RepeatabilityResult : String
  Successful : Bool
  deriving DecidableEq

/-- Go `type ACSResponse struct`. -/
structure ACSResponse where
  Value : List ACSResponseValue
  deriving DecidableEq

/-- The map stored under `"smsSendOptions"`. -/
structure SmsSendOptions where
  enableDeliveryReport : Bool
  deriving DecidableEq

/-- One map `{"to": number}` of the slice stored under `"smsRecipients"`. -/
structure SmsRecipient where
  to_ : String
  deriving DecidableEq

/-- The request payload, a `map[string]interface{}` with the four keys
`"from"`, `"message"`, `"smsSendOptions"` and `"smsRecipients"`. -/
structure Payload where
  from_ : String
  message : String
  smsSendOptions : SmsSendOptions
  smsRecipients : List SmsRecipient
  deriving DecidableEq

/-- The parts of an `http.Request` that `SendMessage` sets. -/
structure Request where
  method : String
  url : String
  header : List (String × String)
  body : String
  deriving DecidableEq

/-- The parts of an `http.Response` that `SendMessage` reads. -/
structure Response where
  StatusCode : Int
  Body : String
  deriving DecidableEq

/-- Go `http.StatusOK`. -/
def StatusOK : Int := 200

/-- The standard-library routines used by `SendMessage`. -/
structure Lib where
  /-- Result of `json.Marshal(payload)`: the encoded body or the error text. -/
  jsonMarshal : Payload → Except String String
  /-- The URL check made by `http.NewRequest`: `none` when the URL parses,
  otherwise the error text. -/
  urlParse : String → Option String
  /-- Result of `client.Do(req)`: the response or the error text. -/
  clientDo : Request → Except String Response
  /-- Result of `json.NewDecoder(resp.Body).Decode(&acsResp)`: the decoded
  value or the error text. -/
  jsonDecode : String → Except String ACSResponse

/-- A call made to one of the routines of `Lib`, with its arguments. -/
inductive Call where
  | jsonMarshal (payload : Payload)
  | newRequest (method url body : String)
  | clientDo (req : Request)
  | jsonDecode (body : String)
  deriving DecidableEq

/-- What a call of `SendMessage` does: the error it returns and the library
calls it made, in order. -/
structure Outcome where
  err : Option String
  calls : List Call
  deriving DecidableEq

/-! ## `GetACSClient` -/

/-- Go `GetACSClient(apiKey, template, endpoint)`; the result is the pair
`(*ACSClient, error)`. -/
def GetACSClient (apiKey : String) (template : String) (endpoint : List String) :
    Option ACSClient × Option String :=
  match endpoint with
  | [] => (none, some "missing parameter: endpoint")
  | endpoint0 :: _ =>
    (some { apiKey := apiKey, endpoint := endpoint0, template := template }, none)

/-! ## `SendMessage` -/

/-- Lines 62 to 66: starting from the template, one `strings.ReplaceAll` per
entry of `param`, in the order of the iteration. -/
def renderMessage (template : String) (param : List (String × String)) : String :=
  param.foldl (fun message kv => ReplaceAll message ("\x7b" ++ kv.1 ++ "\x7d") kv.2) template

/-- Lines 77 to 84: the slice under `"smsRecipients"` starts empty and gets
one `{"to": targetPhoneNumber[i]}` appended for `i = 1, ..., len - 1`. -/
def smsRecipients (targetPhoneNumber : List String) : List SmsRecipient :=
  (targetPhoneNumber.drop 1).foldl (fun recipients number => recipients ++ [{ to_ := number }]) []

/-- Go `http.NewRequest(method, url, body)` for a valid method: the request
with no header yet, or the error of the URL check. -/
def NewRequest (lib : Lib) (method url body : String) : Except String Request :=
  match lib.urlParse url with
  | some e => .error e
  | none => .ok { method := method, url := url, header := [], body := body }

/-- Go `req.Header.Add(key, value)`. -/
def Request.headerAdd (req : Request) (key value : String) : Request :=
  { req with header := req.header ++ [(key, value)] }

/-- Lines 116 to 122: the first entry that is not successful gives the error,
and `nil` is returned when there is none. -/
def checkValues : List ACSResponseValue → Option String
  | [] => none
  | msg :: rest =>
    if !msg.Successful then
      some ("message sending failed for target phone number " ++ msg.To)
    else checkValues rest

/-- Go `(a *ACSClient) SendMessage(param, targetPhoneNumber...)`. -/
def SendMessage (lib : Lib) (a : ACSClient) (param : List (String × String))
    (targetPhoneNumber : List String) : Outcome :=
  match targetPhoneNumber with
  | [] => { err := some "missing parameter: targetPhoneNumber", calls := [] }
  | fromPhoneNumber :: _ =>
    let message := renderMessage a.template param
    let url := a.endpoint ++ "/sms?api-version=2021-03-07"
    let payload : Payload :=
      { from_ := fromPhoneNumber
        message := message
        smsSendOptions := { enableDeliveryReport := true }
        smsRecipients := smsRecipients targetPhoneNumber }
    match lib.jsonMarshal payload with
    | .error e =>
      { err := some ("error creating request body: " ++ e)
        calls := [.jsonMarshal payload] }
    | .ok requestBody =>
      match NewRequest lib "POST" url requestBody with
      | .error e =>
        { err := some ("error creating request: " ++ e)
          calls := [.jsonMarshal payload, .newRequest "POST" url requestBody] }
      | .ok req0 =>
        let req := (req0.headerAdd "Authorization" ("Bearer " ++ a.apiKey)).headerAdd
          "Content-Type" "application/json"
        match lib.clientDo req with
        | .error e =>
          { err := some ("error sending request: " ++ e)
            calls := [.jsonMarshal payload, .newRequest "POST" url requestBody, .clientDo req] }
        | .ok resp =>
          if resp.StatusCode ≠ StatusOK then
            { err := some "message sending failed"
              calls := [.jsonMarshal payload, .newRequest "POST" url requestBody,
                .clientDo req] }
          else
            match lib.jsonDecode resp.Body with
            | .error e =>
              { err := some ("error parsing response body: " ++ e)
                calls := [.jsonMarshal payload, .newRequest "POST" url requestBody,
                  .clientDo req, .jsonDecode resp.Body] }
            | .ok acsResp =>
              { err := checkValues acsResp.Value
                calls := [.jsonMarshal payload, .newRequest "POST" url requestBody,
                  .clientDo req, .jsonDecode resp.Body] }

/-- A library for examples: marshalling gives `requestBody`, every URL parses,
the transport answers `resp` to every request and the decoder gives `decoded`
for every body. -/
def mockLib (requestBody : String) (resp : Response) (decoded : Except String ACSResponse) :
    Lib :=
  { jsonMarshal := fun _ => .ok requestBody
    urlParse := fun _ => none
    clientDo := fun _ => .ok resp
    jsonDecode := fun _ => decoded }

/-- The request that `SendMessage` hands to the transport for client `a` and
the marshalled payload `requestBody` (lines 68 and 92 to 98). -/
def sentRequest (a : ACSClient) (requestBody : String) : Request :=
  { method := "POST"
    url := a.endpoint ++ "/sms?api-version=2021-03-07"
    header := [("Authorization", "Bearer " ++ a.apiKey), ("Content-Type", "application/json")]
    body := requestBody }

/-! ## Templates as text and placeholders -/

/-- Whether a string has no opening and no closing brace. -/
def braceFree (s : String) : Bool := s.data.all (fun c => c != '{' && c != '}')

/-- A piece of a template: one character of text, or a placeholder, which
stands for an opening brace, a name and a closing brace. -/
inductive Piece where
  | text (c : Char)
  | hole (name : String)
  deriving DecidableEq

/-- A text character is not a brace, and the name of a placeholder has no
brace. -/
def Piece.wellFormed : Piece → Bool
  | .text c => c != '{' && c != '}'
  | .hole name => braceFree name

/-- The characters a piece stands for. -/
def Piece.chars : Piece → List Char
  | .text c => [c]
  | .hole name => '{' :: (name.data ++ ['}'])

/-- The template a sequence of pieces stands for. -/
def piecesString (pieces : List Piece) : String := ⟨pieces.flatMap Piece.chars⟩

/-- Substitution of the map into one piece, in the words of the specification:
a placeholder whose name is a key of the map becomes the mapped value, every
other placeholder and all text stay as they are. -/
def substPiece (M : List (String × String)) : Piece → List Char
  | .text c => [c]
  | .hole name =>
    match M.lookup name with
    | some value => value.data
    | none => '{' :: (name.data ++ ['}'])

/-- The template with every placeholder substituted by `substPiece`, all at
once. -/
def substitute (M : List (String × String)) (pieces : List Piece) : String :=
  ⟨pieces.flatMap (substPiece M)⟩

/-- The pieces left by one `strings.ReplaceAll` for the entry `(key, value)`:
a placeholder named `key` becomes the text `value`. -/
def fillPiece (key value : String) : Piece → List Piece
  | .text c => [.text c]
  | .hole name => if name = key then value.data.map .text else [.hole name]

/-- Reading of a template as pieces, from left to right.  The first argument
is `none` outside a placeholder and `some name` inside one, `name` being the
characters read since the opening brace, the last one first.  There is no
reading when a brace is nested, stray or left open. -/
def parseFrom : Option (List Char) → List Char → Option (List Piece)
  | none, [] => some []
  | some _, [] => none
  | none, c :: rest =>
    if c = '{' then parseFrom (some []) rest
    else if c = '}' then none
    else (parseFrom none rest).map (fun pieces => Piece.text c :: pieces)
  | some name, c :: rest =>
    if c = '}' then (parseFrom none rest).map (fun pieces => Piece.hole ⟨name.reverse⟩ :: pieces)
    else if c = '{' then none
    else parseFrom (some (c :: name)) rest

/-- The pieces of a template in which every brace belongs to a placeholder
with a brace-free name, and `none` for any other template. -/
def parseTemplate (T : String) : Option (List Piece) := parseFrom none T.data

/-! ## Response bodies -/

/-- JSON white space: space, tab, line feed, carriage return. -/
def isJSONSpace (c : Char) : Bool :=
  c == ' ' || c == Char.ofNat 9 || c == Char.ofNat 10 || c == Char.ofNat 13

/-- Whether the first character of a body after leading JSON white space is an
opening brace.  Every JSON text of the expected shape, an object with the
member `value`, starts in this way. -/
def startsObject (body : String) : Bool :=
  match body.data.dropWhile isJSONSpace with
  | c :: _ => c == '{'
  | [] => false

/-- Modelled from the documentation of `encoding/json`: decoding the JSON
value `null` into a struct "has no effect on the value and produces no error",
so `Decode` answers the body `null` with no error and `acsResp` at its zero
value.  The answer to every other body is that of `other`. -/
def decodeNull (other : String → Except String ACSResponse) (body : String) :
    Except String ACSResponse :=
  if body = "null" then .ok { Value := [] } else other body

/-- A library for the body `null`: as `mockLib`, with a decoder that answers
`null` as `decodeNull` does and rejects every other body. -/
def nullLib (requestBody : String) (resp : Response) : Lib :=
  { jsonMarshal := fun _ => .ok requestBody
    urlParse := fun _ => none
    clientDo := fun _ => .ok resp
    jsonDecode := decodeNull (fun _ => .error "invalid character") }

/-! ## Auxiliary facts -/

/-- Once the transport has been called on `req` and has answered `resp`, the
outcome is decided by the status code, the decoder and the scan of the
entries. -/
theorem SendMessage_after_clientDo (lib : Lib) (a : ACSClient) (param : List (String × String))
    (targets : List String) (req : Request) (resp : Response)
    (hcall : Call.clientDo req ∈ (SendMessage lib a param targets).calls)
    (hresp : lib.clientDo req = .ok resp) :
    ∃ p m u b, SendMessage lib a param targets =
      if resp.StatusCode ≠ StatusOK then
        { err := some "message sending failed"
          calls := [.jsonMarshal p, .newRequest m u b, .clientDo req] }
      else
        match lib.jsonDecode resp.Body with
        | .error e =>
          { err := some ("error parsing response body: " ++ e)
            calls := [.jsonMarshal p, .newRequest m u b, .clientDo req, .jsonDecode resp.Body] }
        | .ok acsResp =>
          { err := checkValues acsResp.Value
            calls := [.jsonMarshal p, .newRequest m u b, .clientDo req, .jsonDecode resp.Body] } := by
  cases targets with
  | nil => simp [SendMessage] at hcall
  | cons t ts =>
    unfold SendMessage at hcall ⊢
    simp only at hcall ⊢
    split at hcall
    · simp at hcall
    · split at hcall
      · simp at hcall
      · split at hcall
        · rename_i e he
          simp at hcall
          rw [← hcall, hresp] at he
          cases he
        · rename_i req0 _ _ resp1 hd
          have hreq : req = (req0.headerAdd "Authorization" ("Bearer " ++ a.apiKey)).headerAdd
              "Content-Type" "application/json" := by
            split at hcall
            · simpa using hcall
            · split at hcall <;> simpa using hcall
          rw [← hreq, hresp] at hd
          cases hd
          rw [← hreq]
          exact ⟨_, _, _, _, rfl⟩

/-- The outcome when marshalling and request construction succeed: the
transport is called on `sentRequest a requestBody`. -/
theorem SendMessage_sent (lib : Lib) (a : ACSClient) (param : List (String × String))
    (t : String) (ts : List String) (requestBody : String)
    (hm : lib.jsonMarshal
      { from_ := t, message := renderMessage a.template param,
        smsSendOptions := { enableDeliveryReport := true },
        smsRecipients := smsRecipients (t :: ts) } = .ok requestBody)
    (hu : lib.urlParse (a.endpoint ++ "/sms?api-version=2021-03-07") = none) :
    Call.clientDo (sentRequest a requestBody) ∈ (SendMessage lib a param (t :: ts)).calls := by
  simp only [SendMessage, hm, NewRequest, hu, Request.headerAdd, List.nil_append,
    List.singleton_append, sentRequest]
  split
  · simp
  · split
    · simp
    · split <;> simp

/-- Every request handed to the transport is `sentRequest a requestBody` for
some marshalled body. -/
theorem clientDo_call_eq (lib : Lib) (a : ACSClient) (param : List (String × String))
    (targets : List String) (req : Request)
    (hcall : Call.clientDo req ∈ (SendMessage lib a param targets).calls) :
    ∃ requestBody, req = sentRequest a requestBody := by
  cases targets with
  | nil => simp [SendMessage] at hcall
  | cons t ts =>
    unfold SendMessage at hcall
    simp only [NewRequest] at hcall
    split at hcall
    · simp at hcall
    · rename_i requestBody _
      refine ⟨requestBody, ?_⟩
      split at hcall
      · simp at hcall
      · rename_i req0 hnew
        have h0 : req0 =
            (⟨"POST", a.endpoint ++ "/sms?api-version=2021-03-07", [], requestBody⟩ : Request) := by
          split at hnew
          · cases hnew
          · cases hnew; rfl
        subst h0
        split at hcall
        · simpa [Request.headerAdd, sentRequest] using hcall
        · split at hcall
          · simpa [Request.headerAdd, sentRequest] using hcall
          · split at hcall <;> simpa [Request.headerAdd, sentRequest] using hcall

theorem checkValues_all_successful (vs : List ACSResponseValue)
    (hall : ∀ x ∈ vs, x.Successful = true) : checkValues vs = none := by
  induction vs with
  | nil => rfl
  | cons v vs ih =>
    have hv : v.Successful = true := hall v (List.mem_cons_self _ _)
    simp only [checkValues, hv, Bool.not_true, Bool.false_eq_true, ↓reduceIte]
    exact ih (fun x hx => hall x (List.mem_cons_of_mem _ hx))

theorem checkValues_first_failed (before after : List ACSResponseValue) (v : ACSResponseValue)
    (hbefore : ∀ x ∈ before, x.Successful = true) (hv : v.Successful = false) :
    checkValues (before ++ v :: after) =
      some ("message sending failed for target phone number " ++ v.To) := by
  induction before with
  | nil => simp [checkValues, hv]
  | cons w ws ih =>
    have hw : w.Successful = true := hbefore w (List.mem_cons_self _ _)
    simp only [List.cons_append, checkValues, hw, Bool.not_true, Bool.false_eq_true, ↓reduceIte]
    exact ih (fun x hx => hbefore x (List.mem_cons_of_mem _ hx))

theorem parse_error_ne_generic (e : String) :
    "error parsing response body: " ++ e ≠ "message sending failed" := by
  intro h
  have h2 := congrArg (fun s => s.data.head?) h
  simp at h2

theorem parse_error_ne_delivery (e number : String) :
    "error parsing response body: " ++ e ≠
      "message sending failed for target phone number " ++ number := by
  intro h
  have h2 := congrArg (fun s => s.data.head?) h
  simp at h2

theorem checkValues_ne_parse_error (vs : List ACSResponseValue) (e : String) :
    checkValues vs ≠ some ("error parsing response body: " ++ e) := by
  induction vs with
  | nil => simp [checkValues]
  | cons v vs ih =>
    rw [checkValues]
    split
    · intro h
      exact parse_error_ne_delivery e v.To (Option.some.inj h).symm
    · exact ih

/-! ## Construction and the empty target list -/

/-- C8: with an empty endpoint list `GetACSClient` returns no client and the
error "missing parameter: endpoint", whatever the API key and the template. -/
theorem GetACSClient_no_endpoint (apiKey template : String) :
    GetACSClient apiKey template [] = (none, some "missing parameter: endpoint") := rfl

/-- C7: with no target number `SendMessage` returns the error
"missing parameter: targetPhoneNumber" and makes no library call at all;
the result does not depend on the client, on the map or on the library. -/
theorem SendMessage_no_target (lib : Lib) (a : ACSClient) (param : List (String × String)) :
    SendMessage lib a param [] =
      { err := some "missing parameter: targetPhoneNumber", calls := [] } := rfl

theorem SendMessage_calls_head (lib : Lib) (a : ACSClient) (param : List (String × String))
    (t : String) (ts : List String) :
    (SendMessage lib a param (t :: ts)).calls.head? = some (Call.jsonMarshal
        { from_ := t
          message := renderMessage a.template param
          smsSendOptions := { enableDeliveryReport := true }
          smsRecipients := smsRecipients (t :: ts) }) := by
  unfold SendMessage
  simp only
  split
  · rfl
  · split
    · rfl
    · split
      · rfl
      · split
        · rfl
        · split <;> rfl

theorem SendMessage_congr (lib : Lib) (a : ACSClient) (M₁ M₂ : List (String × String))
    (targets : List String) (h : renderMessage a.template M₁ = renderMessage a.template M₂) :
    SendMessage lib a M₁ targets = SendMessage lib a M₂ targets := by
  cases targets with
  | nil => rfl
  | cons t ts =>
    unfold SendMessage
    simp only [h]

theorem lookup_absent (name : String) (M : List (String × String))
    (h : ∀ kv ∈ M, kv.1 ≠ name) : M.lookup name = none := by
  induction M with
  | nil => rfl
  | cons kv M ih =>
    obtain ⟨k, v⟩ := kv
    have hk : (name == k) = false := by
      simpa using fun e => h (k, v) (List.mem_cons_self _ _) e.symm
    rw [List.lookup_cons, hk]
    exact ih (fun x hx => h x (List.mem_cons_of_mem _ hx))

/-! ## The request -/

/-- C9: for a non-empty endpoint list `GetACSClient` returns a client and no
error, whatever the API key and the template, and the client depends on the
first endpoint only.  Every request that `SendMessage` then hands to the
transport is a POST to the first endpoint followed by
"/sms?api-version=2021-03-07" with the headers `Authorization: Bearer K` and
`Content-Type: application/json`, in this order, and that request is handed to
the transport whenever the payload is marshalled and the URL parses. -/
theorem GetACSClient_request (lib : Lib) (apiKey template e : String) (es es2 : List String)
    (param : List (String × String)) (t : String) (ts : List String) :
    ∃ a : ACSClient,
      GetACSClient apiKey template (e :: es) = (some a, none) ∧
      GetACSClient apiKey template (e :: es2) = (some a, none) ∧
      (∀ req, Call.clientDo req ∈ (SendMessage lib a param (t :: ts)).calls →
        req.method = "POST" ∧ req.url = e ++ "/sms?api-version=2021-03-07" ∧
        req.header =
          [("Authorization", "Bearer " ++ apiKey), ("Content-Type", "application/json")]) ∧
      (∀ requestBody,
        lib.jsonMarshal
          { from_ := t, message := renderMessage template param,
            smsSendOptions := { enableDeliveryReport := true },
            smsRecipients := smsRecipients (t :: ts) } = .ok requestBody →
        lib.urlParse (e ++ "/sms?api-version=2021-03-07") = none →
        Call.clientDo
            { method := "POST"
              url := e ++ "/sms?api-version=2021-03-07"
              header :=
                [("Authorization", "Bearer " ++ apiKey), ("Content-Type", "application/json")]
              body := requestBody } ∈ (SendMessage lib a param (t :: ts)).calls) := by
  refine ⟨{ apiKey := apiKey, endpoint := e, template := template }, rfl, rfl, ?_, ?_⟩
  · intro req hreq
    obtain ⟨requestBody, rfl⟩ := clientDo_call_eq lib _ param (t :: ts) req hreq
    exact ⟨rfl, rfl, rfl⟩
  · intro requestBody hm hu
    exact SendMessage_sent lib _ param t ts requestBody hm hu

/-- An instance of `GetACSClient_request`: with two endpoints, of which the
second plays no part, the request goes to the first one. -/
theorem GetACSClient_request_witness :
    ∃ a : ACSClient,
      GetACSClient "K" "hi" ["https://acs.example", "unused"] = (some a, none) ∧
      Call.clientDo
          { method := "POST"
            url := "https://acs.example/sms?api-version=2021-03-07"
            header := [("Authorization", "Bearer K"), ("Content-Type", "application/json")]
            body := "body" } ∈
        (SendMessage (mockLib "body" { StatusCode := 200, Body := "" } (.ok { Value := [] }))
          a [] ["+1", "+2"]).calls := by
  obtain ⟨a, h1, _, _, h4⟩ := GetACSClient_request
    (mockLib "body" { StatusCode := 200, Body := "" } (.ok { Value := [] }))
    "K" "hi" "https://acs.example" ["unused"] [] [] "+1" ["+2"]
  exact ⟨a, h1, h4 "body" rfl rfl⟩

/-! ## Interpretation of the response -/

/-- C3: when the transport answers with status 200 and the decoded list has
an entry that is not successful, every entry before it being successful,
`SendMessage` returns the error naming the `To` address of that entry; the
entries after it play no part, and the address occurs in the error text. -/
theorem SendMessage_first_failed (lib : Lib) (a : ACSClient) (param : List (String × String))
    (t : String) (ts : List String) (req : Request) (body : String)
    (before after : List ACSResponseValue) (v : ACSResponseValue)
    (hcall : Call.clientDo req ∈ (SendMessage lib a param (t :: ts)).calls)
    (hresp : lib.clientDo req = .ok { StatusCode := 200, Body := body })
    (hdec : lib.jsonDecode body = .ok { Value := before ++ v :: after })
    (hbefore : ∀ x ∈ before, x.Successful = true) (hv : v.Successful = false) :
    (SendMessage lib a param (t :: ts)).err =
        some ("message sending failed for target phone number " ++ v.To) ∧
      v.To.data <:+: ("message sending failed for target phone number " ++ v.To).data := by
  obtain ⟨p, m, u, b, h⟩ := SendMessage_after_clientDo lib a param (t :: ts) req _ hcall hresp
  refine ⟨?_, ?_⟩
  · rw [h]
    simp only [StatusOK, ne_eq, not_true_eq_false, ↓reduceIte, hdec]
    exact checkValues_first_failed before after v hbefore hv
  · rw [String.data_append]
    exact (List.suffix_append _ _).isInfix

/-- The example of C3: one entry, not successful, for "+15551234". -/
theorem SendMessage_first_failed_witness :
    (SendMessage
        (mockLib "body" { StatusCode := 200, Body := "r" } (.ok { Value :=
          [{ To := "+15551234", MessageID := "", HTTPStatus := 400, ErrorMessage := "rejected",
             RepeatabilityResult := "", Successful := false }] }))
        { apiKey := "K", endpoint := "https://acs.example", template := "hi" } []
        ["+15550000", "+15551234"]).err =
      some "message sending failed for target phone number +15551234" :=
  (SendMessage_first_failed
    (mockLib "body" { StatusCode := 200, Body := "r" } (.ok { Value :=
      [{ To := "+15551234", MessageID := "", HTTPStatus := 400, ErrorMessage := "rejected",
         RepeatabilityResult := "", Successful := false }] }))
    { apiKey := "K", endpoint := "https://acs.example", template := "hi" } []
    "+15550000" ["+15551234"]
    (sentRequest { apiKey := "K", endpoint := "https://acs.example", template := "hi" } "body")
    "r" [] []
    { To := "+15551234", MessageID := "", HTTPStatus := 400, ErrorMessage := "rejected",
      RepeatabilityResult := "", Successful := false }
    (by decide) rfl rfl (by simp) rfl).1

/-- C4: when the transport answers with status 200 and every entry of the
decoded list is successful (in particular when the list is empty),
`SendMessage` returns `nil`, whatever the other fields of the entries. -/
theorem SendMessage_all_successful (lib : Lib) (a : ACSClient)
    (param : List (String × String)) (t : String) (ts : List String) (req : Request)
    (body : String) (acsResp : ACSResponse)
    (hcall : Call.clientDo req ∈ (SendMessage lib a param (t :: ts)).calls)
    (hresp : lib.clientDo req = .ok { StatusCode := 200, Body := body })
    (hdec : lib.jsonDecode body = .ok acsResp)
    (hall : ∀ x ∈ acsResp.Value, x.Successful = true) :
    (SendMessage lib a param (t :: ts)).err = none := by
  obtain ⟨p, m, u, b, h⟩ := SendMessage_after_clientDo lib a param (t :: ts) req _ hcall hresp
  rw [h]
  simp only [StatusOK, ne_eq, not_true_eq_false, ↓reduceIte, hdec]
  exact checkValues_all_successful _ hall

/-- An instance of `SendMessage_all_successful`: two successful entries with
different other fields. -/
theorem SendMessage_all_successful_witness :
    (SendMessage
        (mockLib "body" { StatusCode := 200, Body := "r" } (.ok { Value :=
          [{ To := "+15551234", MessageID := "m1", HTTPStatus := 202, ErrorMessage := "",
             RepeatabilityResult := "accepted", Successful := true },
           { To := "+15555678", MessageID := "", HTTPStatus := 500, ErrorMessage := "odd",
             RepeatabilityResult := "", Successful := true }] }))
        { apiKey := "K", endpoint := "https://acs.example", template := "hi" } []
        ["+15550000", "+15551234", "+15555678"]).err = none :=
  SendMessage_all_successful
    (mockLib "body" { StatusCode := 200, Body := "r" } (.ok { Value :=
      [{ To := "+15551234", MessageID := "m1", HTTPStatus := 202, ErrorMessage := "",
         RepeatabilityResult := "accepted", Successful := true },
       { To := "+15555678", MessageID := "", HTTPStatus := 500, ErrorMessage := "odd",
         RepeatabilityResult := "", Successful := true }] }))
    { apiKey := "K", endpoint := "https://acs.example", template := "hi" } []
    "+15550000" ["+15551234", "+15555678"]
    (sentRequest { apiKey := "K", endpoint := "https://acs.example", template := "hi" } "body")
    "r" _ (by decide) rfl rfl (by decide)

/-- C5: when the transport answers with a status other than 200,
`SendMessage` returns the error "message sending failed", the same for every
status and every body, and the decoder is never called. -/
theorem SendMessage_status_not_ok (lib : Lib) (a : ACSClient)
    (param : List (String × String)) (t : String) (ts : List String) (req : Request)
    (resp : Response)
    (hcall : Call.clientDo req ∈ (SendMessage lib a param (t :: ts)).calls)
    (hresp : lib.clientDo req = .ok resp)
    (hstatus : resp.StatusCode ≠ 200) :
    (SendMessage lib a param (t :: ts)).err = some "message sending failed" ∧
      ∀ b, Call.jsonDecode b ∉ (SendMessage lib a param (t :: ts)).calls := by
  obtain ⟨p, m, u, b, h⟩ := SendMessage_after_clientDo lib a param (t :: ts) req _ hcall hresp
  rw [h]
  simp [StatusOK, hstatus]

/-- An instance of `SendMessage_status_not_ok`: status 500 with a body that
the decoder would read as one successful entry. -/
theorem SendMessage_status_not_ok_witness :
    (SendMessage
        (mockLib "body" { StatusCode := 500, Body := "r" } (.ok { Value :=
          [{ To := "+15551234", MessageID := "m1", HTTPStatus := 202, ErrorMessage := "",
             RepeatabilityResult := "", Successful := true }] }))
        { apiKey := "K", endpoint := "https://acs.example", template := "hi" } []
        ["+15550000", "+15551234"]).err = some "message sending failed" :=
  (SendMessage_status_not_ok
    (mockLib "body" { StatusCode := 500, Body := "r" } (.ok { Value :=
      [{ To := "+15551234", MessageID := "m1", HTTPStatus := 202, ErrorMessage := "",
         RepeatabilityResult := "", Successful := true }] }))
    { apiKey := "K", endpoint := "https://acs.example", template := "hi" } []
    "+15550000" ["+15551234"]
    (sentRequest { apiKey := "K", endpoint := "https://acs.example", template := "hi" } "body")
    { StatusCode := 500, Body := "r" } (by decide) rfl (by decide)).1

/-- C6, amended: when the transport answers with status 200, a body that the
decoder rejects with the error text `e` makes `SendMessage` return the error
"error parsing response body: " followed by `e`, which differs from the error
for a status other than 200 and from the delivery error of every address; a
body that the decoder accepts never gives a parse error, whatever its shape:
the result is that of the scan of the decoded entries. -/
theorem SendMessage_decode_error (lib : Lib) (a : ACSClient)
    (param : List (String × String)) (t : String) (ts : List String) (req : Request)
    (body : String)
    (hcall : Call.clientDo req ∈ (SendMessage lib a param (t :: ts)).calls)
    (hresp : lib.clientDo req = .ok { StatusCode := 200, Body := body }) :
    (∀ e : String, lib.jsonDecode body = .error e →
      (SendMessage lib a param (t :: ts)).err = some ("error parsing response body: " ++ e) ∧
      (SendMessage lib a param (t :: ts)).err ≠ some "message sending failed" ∧
      ∀ number : String, (SendMessage lib a param (t :: ts)).err ≠
        some ("message sending failed for target phone number " ++ number)) ∧
    (∀ acsResp : ACSResponse, lib.jsonDecode body = .ok acsResp →
      (SendMessage lib a param (t :: ts)).err = checkValues acsResp.Value ∧
      ∀ e : String, (SendMessage lib a param (t :: ts)).err ≠
        some ("error parsing response body: " ++ e)) := by
  obtain ⟨p, m, u, b, h⟩ := SendMessage_after_clientDo lib a param (t :: ts) req _ hcall hresp
  refine ⟨?_, ?_⟩
  · intro e hdec
    have herr : (SendMessage lib a param (t :: ts)).err =
        some ("error parsing response body: " ++ e) := by
      rw [h]
      simp only [StatusOK, ne_eq, not_true_eq_false, ↓reduceIte, hdec]
    refine ⟨herr, ?_, ?_⟩
    · rw [herr]
      intro h2
      exact parse_error_ne_generic e (Option.some.inj h2)
    · intro number
      rw [herr]
      intro h2
      exact parse_error_ne_delivery e number (Option.some.inj h2)
  · intro acsResp hdec
    have herr : (SendMessage lib a param (t :: ts)).err = checkValues acsResp.Value := by
      rw [h]
      simp only [StatusOK, ne_eq, not_true_eq_false, ↓reduceIte, hdec]
    refine ⟨herr, ?_⟩
    intro e
    rw [herr]
    exact checkValues_ne_parse_error acsResp.Value e

/-- An instance of `SendMessage_decode_error`: the decoder reports an
unexpected end of the input. -/
theorem SendMessage_decode_error_witness :
    (SendMessage
        (mockLib "body" { StatusCode := 200, Body := "\x7b" } (.error "unexpected EOF"))
        { apiKey := "K", endpoint := "https://acs.example", template := "hi" } []
        ["+15550000", "+15551234"]).err =
      some "error parsing response body: unexpected EOF" :=
  ((SendMessage_decode_error
    (mockLib "body" { StatusCode := 200, Body := "\x7b" } (.error "unexpected EOF"))
    { apiKey := "K", endpoint := "https://acs.example", template := "hi" } []
    "+15550000" ["+15551234"]
    (sentRequest { apiKey := "K", endpoint := "https://acs.example", template := "hi" } "body")
    "\x7b" (by decide) rfl).1 "unexpected EOF" rfl).1

/-- Against C6 as stated: the body `null` does not start a JSON object, so it
is not of the expected shape; the decoder of Go accepts it and leaves the
response empty, and `SendMessage` returns `nil` where the claim has a parse
error. -/
theorem SendMessage_null_body :
    startsObject "null" = false ∧
      (nullLib "body" { StatusCode := 200, Body := "null" }).jsonDecode "null" =
        .ok { Value := [] } ∧
      (SendMessage (nullLib "body" { StatusCode := 200, Body := "null" })
        { apiKey := "K", endpoint := "https://acs.example", template := "hi" } []
        ["+15550000", "+15551234"]).err = none := by
  refine ⟨by decide, rfl, by decide⟩

/-! ## Rendering -/

/-- A scan that still has `n` characters to skip continues on the input without
them. -/
theorem replaceFrom_skip (old new : List Char) (n : Nat) (s : List Char) :
    replaceFrom old new n s = replaceFrom old new 0 (s.drop n) := by
  induction s generalizing n with
  | nil => cases n <;> simp [replaceFrom]
  | cons c s ih =>
    cases n with
    | zero => rfl
    | succ n => simp only [replaceFrom, List.drop_succ_cons]; exact ih n

theorem replaceFrom_copy (k new u rest : List Char) (hu : ∀ c ∈ u, c ≠ '{') :
    replaceFrom ('{' :: k) new 0 (u ++ rest) = u ++ replaceFrom ('{' :: k) new 0 rest := by
  induction u with
  | nil => rfl
  | cons c u ih =>
    have hc : c ≠ '{' := hu c (List.mem_cons_self _ _)
    have hne : ('{' == c) = false := by
      simp only [beq_eq_false_iff_ne, ne_eq]
      exact fun h => hc h.symm
    simp only [List.cons_append, replaceFrom, List.isPrefixOf, hne, Bool.false_and,
      Bool.false_eq_true, ↓reduceIte, List.append_eq]
    rw [ih (fun x hx => hu x (List.mem_cons_of_mem _ hx))]

theorem replaceFrom_match (old new rest : List Char) (c : Char) (k : List Char)
    (hold : old = c :: k) :
    replaceFrom old new 0 (old ++ rest) = new ++ replaceFrom old new 0 rest := by
  subst hold
  have hp : (c :: k).isPrefixOf (c :: (k ++ rest)) = true := by
    rw [List.isPrefixOf_iff_prefix]
    exact List.prefix_append (c :: k) rest
  simp only [List.cons_append, replaceFrom, List.append_eq, hp, ↓reduceIte, List.length_cons,
    Nat.add_sub_cancel]
  rw [replaceFrom_skip, List.drop_left]

theorem closing_eq (k n rest : List Char) (hk : ∀ c ∈ k, c ≠ '}') (hn : ∀ c ∈ n, c ≠ '}')
    (h : (k ++ ['}']).isPrefixOf (n ++ '}' :: rest) = true) : k = n := by
  induction k generalizing n with
  | nil =>
    cases n with
    | nil => rfl
    | cons b n =>
      simp only [List.nil_append, List.cons_append, List.isPrefixOf, Bool.and_true,
        beq_iff_eq] at h
      exact absurd h.symm (hn b (List.mem_cons_self _ _))
  | cons a k ih =>
    cases n with
    | nil =>
      simp only [List.cons_append, List.nil_append, List.isPrefixOf, Bool.and_eq_true,
        beq_iff_eq] at h
      exact absurd h.1 (hk a (List.mem_cons_self _ _))
    | cons b n =>
      simp only [List.cons_append, List.isPrefixOf, Bool.and_eq_true, beq_iff_eq] at h
      rw [h.1, ih n (fun x hx => hk x (List.mem_cons_of_mem _ hx))
        (fun x hx => hn x (List.mem_cons_of_mem _ hx)) h.2]

theorem braceFree_iff (s : String) :
    braceFree s = true ↔ ∀ c ∈ s.data, c ≠ '{' ∧ c ≠ '}' := by
  simp [braceFree, List.all_eq_true]

theorem pattern_data (key : String) :
    ("\x7b" ++ key ++ "\x7d").data = '{' :: (key.data ++ ['}']) := by
  simp [String.data_append]

theorem text_chars (l : List Char) : (l.map Piece.text).flatMap Piece.chars = l := by
  induction l with
  | nil => rfl
  | cons c l ih => simp [List.flatMap_cons, Piece.chars, ih]

theorem replaceFrom_pieces (key value : String) (hkey : braceFree key = true)
    (pieces : List Piece) (hwf : ∀ p ∈ pieces, p.wellFormed = true) :
    replaceFrom ('{' :: (key.data ++ ['}'])) value.data 0 (pieces.flatMap Piece.chars) =
      (pieces.flatMap (fillPiece key value)).flatMap Piece.chars := by
  induction pieces with
  | nil => rfl
  | cons p ps ih =>
    have ih2 := ih (fun q hq => hwf q (List.mem_cons_of_mem _ hq))
    have hp := hwf p (List.mem_cons_self _ _)
    rw [List.flatMap_cons, List.flatMap_cons, List.flatMap_append]
    cases p with
    | text c =>
      simp only [Piece.wellFormed, Bool.and_eq_true, bne_iff_ne, ne_eq] at hp
      rw [Piece.chars, replaceFrom_copy _ _ _ _ (by simpa using hp.1), ih2]
      simp [fillPiece, Piece.chars]
    | hole name =>
      rw [Piece.wellFormed, braceFree_iff] at hp
      rw [braceFree_iff] at hkey
      by_cases hname : name = key
      · subst hname
        rw [Piece.chars, replaceFrom_match _ _ _ '{' (name.data ++ ['}']) rfl, ih2]
        simp [fillPiece, text_chars]
      · have hno : (key.data ++ ['}']).isPrefixOf
            (name.data ++ '}' :: ps.flatMap Piece.chars) = false := by
          rw [Bool.eq_false_iff]
          intro h
          have := closing_eq key.data name.data _ (fun c hc => (hkey c hc).2)
            (fun c hc => (hp c hc).2) h
          exact hname (String.ext this.symm)
        have hcopy := replaceFrom_copy (key.data ++ ['}']) value.data (name.data ++ ['}'])
          (ps.flatMap Piece.chars) (by
            intro c hc
            rcases List.mem_append.1 hc with h | h
            · exact (hp c h).1
            · simp at h; subst h; decide)
        simp only [List.append_assoc, List.singleton_append] at hcopy
        simp only [Piece.chars, List.cons_append, List.append_assoc, List.singleton_append,
          replaceFrom, List.isPrefixOf, beq_self_eq_true, Bool.true_and, hno,
          Bool.false_eq_true, ↓reduceIte, List.append_eq, fillPiece, hname,
          List.flatMap_cons, List.flatMap_nil, List.append_nil, List.nil_append]
        rw [hcopy, ih2]

theorem ReplaceAll_pieces (key value : String) (hkey : braceFree key = true)
    (pieces : List Piece) (hwf : ∀ p ∈ pieces, p.wellFormed = true) :
    ReplaceAll (piecesString pieces) ("\x7b" ++ key ++ "\x7d") value =
      piecesString (pieces.flatMap (fillPiece key value)) := by
  have hne : ¬ ("\x7b" ++ key ++ "\x7d").data = [] := by
    rw [pattern_data]
    exact List.cons_ne_nil _ _
  rw [ReplaceAll, if_neg hne, pattern_data]
  simp only [piecesString]
  rw [replaceFrom_pieces key value hkey pieces hwf]

theorem fillPiece_wellFormed (key value : String) (hvalue : braceFree value = true)
    (pieces : List Piece) (hwf : ∀ p ∈ pieces, p.wellFormed = true) :
    ∀ q ∈ pieces.flatMap (fillPiece key value), q.wellFormed = true := by
  intro q hq
  rw [List.mem_flatMap] at hq
  obtain ⟨p, hp, hqp⟩ := hq
  cases p with
  | text c =>
    simp only [fillPiece, List.mem_singleton] at hqp
    subst hqp
    exact hwf _ hp
  | hole name =>
    by_cases hname : name = key
    · simp only [fillPiece, hname, ↓reduceIte, List.mem_map] at hqp
      obtain ⟨c, hc, rfl⟩ := hqp
      have := (braceFree_iff value).1 hvalue c hc
      simp [Piece.wellFormed, this.1, this.2]
    · simp only [fillPiece, hname, ↓reduceIte, List.mem_singleton] at hqp
      subst hqp
      exact hwf _ hp

theorem renderMessage_pieces (M : List (String × String))
    (hM : ∀ kv ∈ M, braceFree kv.1 = true ∧ braceFree kv.2 = true)
    (pieces : List Piece) (hwf : ∀ p ∈ pieces, p.wellFormed = true) :
    renderMessage (piecesString pieces) M =
      piecesString (M.foldl (fun ps kv => ps.flatMap (fillPiece kv.1 kv.2)) pieces) := by
  induction M generalizing pieces with
  | nil => rfl
  | cons kv M ih =>
    have hkv := hM kv (List.mem_cons_self _ _)
    have h1 := ReplaceAll_pieces kv.1 kv.2 hkv.1 pieces hwf
    have h2 := ih (fun x hx => hM x (List.mem_cons_of_mem _ hx)) _
      (fillPiece_wellFormed kv.1 kv.2 hkv.2 pieces hwf)
    simp only [renderMessage, List.foldl_cons] at h2 ⊢
    rw [h1, h2]

theorem substPiece_fillPiece (key value : String) (M : List (String × String)) (p : Piece) :
    (fillPiece key value p).flatMap (substPiece M) = substPiece ((key, value) :: M) p := by
  cases p with
  | text c => simp [fillPiece, substPiece]
  | hole name =>
    by_cases hname : name = key
    · subst hname
      simp only [fillPiece, ↓reduceIte, substPiece, List.lookup_cons, beq_self_eq_true]
      generalize value.data = l
      induction l with
      | nil => rfl
      | cons c l ih => simp [List.flatMap_cons, substPiece, ih]
    · have hb : (name == key) = false := by simpa using hname
      simp [fillPiece, hname, substPiece, List.lookup_cons, hb]

theorem foldl_fillPiece (M : List (String × String)) (pieces : List Piece) :
    (M.foldl (fun ps kv => ps.flatMap (fillPiece kv.1 kv.2)) pieces).flatMap Piece.chars =
      pieces.flatMap (substPiece M) := by
  induction M generalizing pieces with
  | nil =>
    have h : Piece.chars = substPiece [] := by
      funext p
      cases p <;> rfl
    rw [List.foldl_nil, h]
  | cons kv M ih =>
    rw [List.foldl_cons, ih, List.flatMap_assoc]
    congr 1
    funext p
    exact substPiece_fillPiece kv.1 kv.2 M p

theorem renderMessage_eq_substitute (M : List (String × String))
    (hM : ∀ kv ∈ M, braceFree kv.1 = true ∧ braceFree kv.2 = true)
    (pieces : List Piece) (hwf : ∀ p ∈ pieces, p.wellFormed = true) :
    renderMessage (piecesString pieces) M = substitute M pieces := by
  rw [renderMessage_pieces M hM pieces hwf, piecesString, substitute, foldl_fillPiece]

theorem lookup_perm (name : String) (M₁ M₂ : List (String × String)) (hperm : M₁.Perm M₂)
    (hnodup : (M₁.map Prod.fst).Nodup) : M₁.lookup name = M₂.lookup name := by
  induction hperm with
  | nil => rfl
  | cons x _ ih =>
    simp only [List.map_cons, List.nodup_cons] at hnodup
    obtain ⟨k, v⟩ := x
    simp only [List.lookup_cons]
    rw [ih hnodup.2]
  | swap x y l =>
    obtain ⟨k1, v1⟩ := x
    obtain ⟨k2, v2⟩ := y
    simp only [List.map_cons, List.nodup_cons, List.mem_cons, not_or] at hnodup
    have hne : k2 ≠ k1 := hnodup.1.1
    simp only [List.lookup_cons]
    by_cases h1 : name = k1
    · subst h1
      have : (name == k2) = false := by simpa using fun h => hne h.symm
      simp [this]
    · have : (name == k1) = false := by simpa using h1
      simp [this]
  | trans h12 _ ih1 ih2 =>
    rw [ih1 hnodup, ih2 ((h12.map Prod.fst).nodup_iff.1 hnodup)]

theorem substitute_perm (pieces : List Piece) (M₁ M₂ : List (String × String))
    (hperm : M₁.Perm M₂) (hnodup : (M₁.map Prod.fst).Nodup) :
    substitute M₁ pieces = substitute M₂ pieces := by
  simp only [substitute]
  congr 2
  funext p
  cases p with
  | text c => rfl
  | hole name => simp only [substPiece, lookup_perm name M₁ M₂ hperm hnodup]

theorem parseFrom_sound (s : List Char) :
    (∀ pieces, parseFrom none s = some pieces →
      (∀ p ∈ pieces, p.wellFormed = true) ∧ pieces.flatMap Piece.chars = s) ∧
    (∀ name pieces, parseFrom (some name) s = some pieces →
      (∀ c ∈ name, c ≠ '{' ∧ c ≠ '}') →
      (∀ p ∈ pieces, p.wellFormed = true) ∧
        pieces.flatMap Piece.chars = '{' :: (name.reverse ++ s)) := by
  induction s with
  | nil =>
    refine ⟨?_, ?_⟩
    · intro pieces h
      simp only [parseFrom, Option.some.injEq] at h
      subst h
      simp
    · intro name pieces h
      simp [parseFrom] at h
  | cons c s ih =>
    obtain ⟨ih1, ih2⟩ := ih
    refine ⟨?_, ?_⟩
    · intro pieces h
      rw [parseFrom] at h
      by_cases hopen : c = '{'
      · rw [if_pos hopen] at h
        have := ih2 [] pieces h (by simp)
        subst hopen
        simpa using this
      · rw [if_neg hopen] at h
        by_cases hclose : c = '}'
        · rw [if_pos hclose] at h
          cases h
        · rw [if_neg hclose, Option.map_eq_some'] at h
          obtain ⟨ps, hps, rfl⟩ := h
          obtain ⟨hwf, hflat⟩ := ih1 ps hps
          refine ⟨?_, ?_⟩
          · intro p hp
            rcases List.mem_cons.1 hp with rfl | hp
            · simp [Piece.wellFormed, hopen, hclose]
            · exact hwf p hp
          · simp [List.flatMap_cons, Piece.chars, hflat]
    · intro name pieces h hname
      rw [parseFrom] at h
      by_cases hclose : c = '}'
      · rw [if_pos hclose, Option.map_eq_some'] at h
        obtain ⟨ps, hps, rfl⟩ := h
        obtain ⟨hwf, hflat⟩ := ih1 ps hps
        refine ⟨?_, ?_⟩
        · intro p hp
          rcases List.mem_cons.1 hp with rfl | hp
          · rw [Piece.wellFormed, braceFree_iff]
            intro x hx
            exact hname x (List.mem_reverse.1 hx)
          · exact hwf p hp
        · subst hclose
          simp [List.flatMap_cons, Piece.chars, hflat]
      · rw [if_neg hclose] at h
        by_cases hopen : c = '{'
        · rw [if_pos hopen] at h
          cases h
        · rw [if_neg hopen] at h
          have := ih2 (c :: name) pieces h (by
            intro x hx
            rcases List.mem_cons.1 hx with rfl | hx
            · exact ⟨hopen, hclose⟩
            · exact hname x hx)
          simpa using this

theorem parseTemplate_sound (T : String) (pieces : List Piece)
    (h : parseTemplate T = some pieces) :
    (∀ p ∈ pieces, p.wellFormed = true) ∧ piecesString pieces = T := by
  obtain ⟨hwf, hflat⟩ := (parseFrom_sound T.data).1 pieces h
  exact ⟨hwf, String.ext hflat⟩

theorem parseFrom_name (name acc rest : List Char) (hname : ∀ c ∈ name, c ≠ '{' ∧ c ≠ '}') :
    parseFrom (some acc) (name ++ '}' :: rest) =
      (parseFrom none rest).map (fun pieces => Piece.hole ⟨acc.reverse ++ name⟩ :: pieces) := by
  induction name generalizing acc with
  | nil => simp [parseFrom]
  | cons c name ih =>
    have hc := hname c (List.mem_cons_self _ _)
    rw [List.cons_append, parseFrom, if_neg hc.2, if_neg hc.1,
      ih (c :: acc) (fun x hx => hname x (List.mem_cons_of_mem _ hx))]
    simp

theorem parseTemplate_complete (pieces : List Piece) (hwf : ∀ p ∈ pieces, p.wellFormed = true) :
    parseTemplate (piecesString pieces) = some pieces := by
  simp only [parseTemplate, piecesString]
  induction pieces with
  | nil => rfl
  | cons p ps ih =>
    have ih2 := ih (fun q hq => hwf q (List.mem_cons_of_mem _ hq))
    have hp := hwf p (List.mem_cons_self _ _)
    rw [List.flatMap_cons]
    cases p with
    | text c =>
      simp only [Piece.wellFormed, Bool.and_eq_true, bne_iff_ne, ne_eq] at hp
      simp only [Piece.chars, List.singleton_append]
      rw [parseFrom, if_neg hp.1, if_neg hp.2, ih2]
      rfl
    | hole name =>
      rw [Piece.wellFormed, braceFree_iff] at hp
      simp only [Piece.chars, List.cons_append, List.append_assoc, List.singleton_append]
      rw [parseFrom, if_pos rfl, parseFrom_name name.data [] _ hp, List.nil_append, ih2]
      rfl

/-- C1, amended: for a template `T` in which every brace belongs to a
placeholder with a brace-free name, `pieces` being its reading, and a map none
of whose keys and values has a brace, the message rendered by `SendMessage`,
in whatever order the entries are visited, is `T` with every placeholder whose
name is a key replaced by the mapped value and everything else unchanged; it
is the message of the payload, and a placeholder whose name is not a key
stands in it as it was. -/
theorem renderMessage_template (lib : Lib) (apiKey endpoint T : String)
    (M : List (String × String)) (pieces : List Piece) (t : String) (ts : List String)
    (hT : parseTemplate T = some pieces)
    (hM : ∀ kv ∈ M, braceFree kv.1 = true ∧ braceFree kv.2 = true) :
    renderMessage T M = substitute M pieces ∧
      (SendMessage lib { apiKey := apiKey, endpoint := endpoint, template := T } M
          (t :: ts)).calls.head? = some (Call.jsonMarshal
        { from_ := t
          message := substitute M pieces
          smsSendOptions := { enableDeliveryReport := true }
          smsRecipients := smsRecipients (t :: ts) }) ∧
      (∀ name, (∀ kv ∈ M, kv.1 ≠ name) →
        substPiece M (Piece.hole name) = (Piece.hole name).chars) := by
  obtain ⟨hwf, hflat⟩ := parseTemplate_sound T pieces hT
  have hrender : renderMessage T M = substitute M pieces := by
    rw [← hflat]
    exact renderMessage_eq_substitute M hM pieces hwf
  refine ⟨hrender, ?_, ?_⟩
  · rw [SendMessage_calls_head, hrender]
  · intro name hname
    simp only [substPiece, lookup_absent name M hname, Piece.chars]

/-- The example of C1: "Your code is" followed by the placeholder `code`, with
`code` mapped to "4821". -/
theorem renderMessage_template_witness :
    renderMessage "Your code is \x7bcode\x7d" [("code", "4821")] = "Your code is 4821" :=
  (renderMessage_template (mockLib "" { StatusCode := 200, Body := "" } (.ok { Value := [] }))
    "K" "https://acs.example" "Your code is \x7bcode\x7d" [("code", "4821")]
    ("Your code is ".data.map Piece.text ++ [Piece.hole "code"])
    "+1" [] (by decide) (by decide)).1.trans (by decide)

/-- Against C1 as stated: the one placeholder of the template is `a`, mapped
to a value that is itself the placeholder `b`; visiting `a` before `b`, the
code replaces that value too and renders "x", where the template with its
placeholder replaced by the mapped value is the placeholder `b`. -/
theorem renderMessage_resubstitutes :
    parseTemplate "\x7ba\x7d" = some [Piece.hole "a"] ∧
      renderMessage "\x7ba\x7d" [("a", "\x7bb\x7d"), ("b", "x")] = "x" ∧
      substitute [("a", "\x7bb\x7d"), ("b", "x")] [Piece.hole "a"] = "\x7bb\x7d" ∧
      renderMessage "\x7ba\x7d" [("a", "\x7bb\x7d"), ("b", "x")] ≠
        substitute [("a", "\x7bb\x7d"), ("b", "x")] [Piece.hole "a"] := by
  decide

/-- C10, amended: for a template in which every brace belongs to a placeholder
with a brace-free name and a map with unique keys none of whose keys and
values has a brace, two orders of the entries give the same rendered message,
and so the same run of `SendMessage`. -/
theorem renderMessage_perm (lib : Lib) (apiKey endpoint T : String)
    (M₁ M₂ : List (String × String)) (pieces : List Piece) (targets : List String)
    (hT : parseTemplate T = some pieces)
    (hperm : M₁.Perm M₂) (hnodup : (M₁.map Prod.fst).Nodup)
    (hM : ∀ kv ∈ M₁, braceFree kv.1 = true ∧ braceFree kv.2 = true) :
    renderMessage T M₁ = renderMessage T M₂ ∧
      SendMessage lib { apiKey := apiKey, endpoint := endpoint, template := T } M₁ targets =
        SendMessage lib { apiKey := apiKey, endpoint := endpoint, template := T } M₂ targets := by
  obtain ⟨hwf, hflat⟩ := parseTemplate_sound T pieces hT
  have hM₂ : ∀ kv ∈ M₂, braceFree kv.1 = true ∧ braceFree kv.2 = true :=
    fun kv hkv => hM kv (hperm.mem_iff.2 hkv)
  have hrender : renderMessage T M₁ = renderMessage T M₂ := by
    rw [← hflat, renderMessage_eq_substitute M₁ hM pieces hwf,
      renderMessage_eq_substitute M₂ hM₂ pieces hwf]
    exact substitute_perm pieces M₁ M₂ hperm hnodup
  exact ⟨hrender, SendMessage_congr lib _ M₁ M₂ targets hrender⟩

/-- An instance of `renderMessage_perm`: two entries, in both orders. -/
theorem renderMessage_perm_witness :
    renderMessage "Hi \x7bname\x7d, your code is \x7bcode\x7d"
        [("code", "4821"), ("name", "Ann")] =
      renderMessage "Hi \x7bname\x7d, your code is \x7bcode\x7d"
        [("name", "Ann"), ("code", "4821")] :=
  (renderMessage_perm (mockLib "" { StatusCode := 200, Body := "" } (.ok { Value := [] }))
    "K" "https://acs.example" "Hi \x7bname\x7d, your code is \x7bcode\x7d"
    [("code", "4821"), ("name", "Ann")] [("name", "Ann"), ("code", "4821")]
    ("Hi ".data.map Piece.text ++ [Piece.hole "name"] ++ ", your code is ".data.map Piece.text ++
      [Piece.hole "code"]) ["+1"]
    (by decide) (List.Perm.swap _ _ _) (by decide) (by decide)).1

/-- Against C10 as stated: a map with the unique keys `a` and `b`, the value
of `a` being the placeholder `b`; the two orders of its entries render "x" and
the placeholder `b`. -/
theorem renderMessage_order_matters :
    List.Perm [("a", "\x7bb\x7d"), ("b", "x")] [("b", "x"), ("a", "\x7bb\x7d")] ∧
      ([("a", "\x7bb\x7d"), ("b", "x")].map Prod.fst).Nodup ∧
      renderMessage "\x7ba\x7d" [("a", "\x7bb\x7d"), ("b", "x")] = "x" ∧
      renderMessage "\x7ba\x7d" [("b", "x"), ("a", "\x7bb\x7d")] = "\x7bb\x7d" ∧
      renderMessage "\x7ba\x7d" [("a", "\x7bb\x7d"), ("b", "x")] ≠
        renderMessage "\x7ba\x7d" [("b", "x"), ("a", "\x7bb\x7d")] := by
  refine ⟨List.Perm.swap _ _ _, by decide, by decide, by decide, by decide⟩

/-- The order matters as well when a key has braces, the values having none
and the template being two placeholders. -/
theorem renderMessage_order_matters_key :
    parseTemplate "\x7ba\x7d\x7bb\x7d" = some [Piece.hole "a", Piece.hole "b"] ∧
      renderMessage "\x7ba\x7d\x7bb\x7d" [("a", "Y"), ("a\x7d\x7bb", "X")] = "Y\x7bb\x7d" ∧
      renderMessage "\x7ba\x7d\x7bb\x7d" [("a\x7d\x7bb", "X"), ("a", "Y")] = "X" := by
  decide

/-- The order matters as well when the template has a placeholder inside a
pair of braces, the keys and the values having no brace. -/
theorem renderMessage_order_matters_nested :
    parseTemplate "\x7b\x7bk\x7d\x7d" = none ∧
      renderMessage "\x7b\x7bk\x7d\x7d" [("k", "a"), ("a", "X")] = "X" ∧
      renderMessage "\x7b\x7bk\x7d\x7d" [("a", "X"), ("k", "a")] = "\x7ba\x7d" := by
  decide

/-! ## The payload -/

end GoSmsSender
